import Mathlib

/-!
Shallow embedding of the DMSP dispersion-event detection pipeline
(`visualize_storm.py` together with the `lib_search_dispersion` core it
drives), and proofs about the behaviour of `search_events` and `main`.

The driver `visualize_storm.py` is embedded directly from its source.
The `lib_search_dispersion` core (file reading, derivative estimation,
integrand building, event walking, match summarising) is not part of the
checked-in sources, so those components are modelled from the design
specification; each such definition carries a `Modelled from the spec:`
doc comment.  External library behaviour (`pd.concat`, `sort_values`,
`np.searchsorted`) is embedded from the libraries' documented semantics.

Machine reals (ion energies, field strengths, derivative values) are
modelled as rationals, timestamps as integers (epoch seconds).
-/

namespace DmspStorm

/-- One sample of the OMNIweb interplanetary magnetic-field record:
a timestamp together with the three field components (nT). -/
structure FieldSample where
  t : ℤ
  Bx : ℚ
  By : ℚ
  Bz : ℚ
  deriving DecidableEq, Repr

/-- One detected event, as one row of the DataFrame produced by
`walk_and_integrate`: start/end timestamps of the interval and the mean
field components over it.  Mirrors the columns used by
`visualize_storm.py` (`start_time`, `end_time`, `Bx_mean`, `By_mean`,
`Bz_mean`). -/
structure MatchRecord where
  start_time : ℤ
  end_time : ℤ
  Bx_mean : ℚ
  By_mean : ℚ
  Bz_mean : ℚ
  deriving DecidableEq, Repr

/-- The parsed content of one daily DMSP file (`read_dmsp_file`'s result
`dmsp_fh`): the timestamp array `t`, the per-timestep characteristic
ion energy `eic`, and the per-timestep magnetic latitude `mlat` (used
only for plot annotation). -/
structure DmspFh where
  t : List ℤ
  eic : List ℚ
  mlat : List ℚ
  deriving DecidableEq, Repr

/-- The per-file match DataFrame `df_match`: its rows, plus the `file`
column, which is absent (`none`) until the plotting loop of
`search_events` assigns it. -/
structure Df where
  rows : List MatchRecord
  file : Option String
  deriving DecidableEq, Repr

/-- What a completed run of `main` externalises: the event table printed
to the console and the event table written to the output CSV. -/
structure RunOut where
  printed : List MatchRecord
  csv : List MatchRecord
  deriving DecidableEq, Repr

instance {ε α : Type} [DecidableEq ε] [DecidableEq α] :
    DecidableEq (Except ε α) := fun a b =>
  match a, b with
  | .error x, .error y =>
      if h : x = y then .isTrue (by subst h; rfl)
      else .isFalse (by intro c; cases c; exact h rfl)
  | .error _, .ok _ => .isFalse (fun c => Except.noConfusion c)
  | .ok _, .error _ => .isFalse (fun c => Except.noConfusion c)
  | .ok x, .ok y =>
      if h : x = y then .isTrue (by subst h; rfl)
      else .isFalse (by intro c; cases c; exact h rfl)

/-- Modelled from the spec: the fixed smoothing-window width (in samples)
of the derivative estimator.  The spec fixes only that it is a tunable
constant; the concrete value is not load-bearing for any claim. -/
def SMOOTH_WINDOW : Nat := 5

/-- Modelled from the spec: the maximum-energy analysis ceiling (eV);
timesteps whose characteristic energy exceeds it contribute no
evidence. -/
def MAX_ENERGY_ANALYZED : ℚ := 10000

/-- Modelled from the spec: the run-level interval-length constant
`lib_search_dispersion.INTERVAL_LENGTH` — the maximum event duration
(seconds) before the walker force-closes an open interval. -/
def INTERVAL_LENGTH : ℤ := 3600

/-- Modelled from the spec: minimum duration (seconds) an interval must
span to pass the walker's acceptance filter. -/
def MIN_EVENT_DURATION : ℤ := 60

/-- Modelled from the spec: minimum accumulated-integral magnitude an
interval must reach to pass the walker's acceptance filter. -/
def MIN_INTEGRAL_MAGNITUDE : ℚ := 1/10

/-- Modelled from the spec: `FieldContext.field_at` — nearest-neighbour
lookup of the field vector at time `tq`; fails (`OutOfRangeError`) when
`tq` falls outside the loaded record's time span. -/
def fieldAt (rec : List FieldSample) (tq : ℤ) : Except Unit (ℚ × ℚ × ℚ) :=
  match rec with
  | [] => .error ()
  | s₀ :: rest =>
      if tq < s₀.t ∨ (rest.getLastD s₀).t < tq then .error ()
      else
        let best := (s₀ :: rest).foldl
          (fun b s => if |s.t - tq| < |b.t - tq| then s else b) s₀
        .ok (best.Bx, best.By, best.Bz)

/-- Modelled from the spec: `FieldContext.mean_over` — arithmetic mean of
all samples whose timestamp lies in `[a, b]`; when no sample falls in
range, falls back to the single-point estimate at the midpoint (which
propagates `OutOfRangeError` when the midpoint is uncovered). -/
def meanOver (rec : List FieldSample) (a b : ℤ) : Except Unit (ℚ × ℚ × ℚ) :=
  let inR := rec.filter (fun s => decide (a ≤ s.t) && decide (s.t ≤ b))
  if inR.isEmpty then fieldAt rec (Int.tdiv (a + b) 2)
  else
    let n : ℚ := inR.length
    .ok ((inR.map FieldSample.Bx).sum / n,
         (inR.map FieldSample.By).sum / n,
         (inR.map FieldSample.Bz).sum / n)

/-- One field sample with all three field-component signs flipped
(timestamp unchanged). -/
def fNeg (s : FieldSample) : FieldSample :=
  ⟨s.t, -s.Bx, -s.By, -s.Bz⟩

/-- A field triple with all three components negated. -/
def neg3 (b : ℚ × ℚ × ℚ) : ℚ × ℚ × ℚ :=
  (-b.1, -b.2.1, -b.2.2)

/-- A field record with every field-component sign flipped (timestamps
unchanged) — the transformed input of the polarity-symmetry law. -/
def flipRecord (rec : List FieldSample) : List FieldSample :=
  rec.map fNeg

/-- Modelled from the spec:
`lib_search_dispersion.estimate_log_Eic_smooth_derivative` — the
derivative estimator.  Applies the (abstract) logarithmic transform
`logT` to the positive characteristic-energy samples and computes a
centred smoothed finite difference with respect to time, truncating the
window at the edges so the output is aligned 1:1 with the input;
non-positive samples are gaps and contribute `0`.  If the input series
has fewer samples than the smoothing window it returns an empty
derivative series.  Returns `(dEicdt_smooth, Eic)`. -/
def estimate_log_Eic_smooth_derivative (logT : ℚ → ℚ) (fh : DmspFh) :
    List ℚ × List ℚ :=
  let n := fh.eic.length
  if n < SMOOTH_WINDOW then ([], fh.eic)
  else
    let h := SMOOTH_WINDOW / 2
    let deriv := (List.range n).map (fun i =>
      let lo := i - h
      let hi := min (i + h) (n - 1)
      let a := fh.eic.getD lo 0
      let b := fh.eic.getD hi 0
      if 0 < a ∧ 0 < b then
        (logT b - logT a) / ((fh.t.getD hi 0 - fh.t.getD lo 0 : ℤ) : ℚ)
      else 0)
    (deriv, fh.eic)

/-- Modelled from the spec: the polarity gate of the integrand builder —
the field direction satisfies the coded threshold (southward `Bz`), and
a reverse-polarity run tests the opposite of the coded threshold. -/
def polarityGate (reverse_effect : Bool) (b : ℚ × ℚ × ℚ) : Bool :=
  if reverse_effect then decide (0 < b.2.2) else decide (b.2.2 < 0)

/-- A Python-style fallible loop: map `f` over the list, the first raised
error aborting the whole loop. -/
def mapME {α β : Type} (f : α → Except Unit β) : List α → Except Unit (List β)
  | [] => .ok []
  | x :: xs =>
    match f x with
    | .error e => .error e
    | .ok y =>
      match mapME f xs with
      | .error e => .error e
      | .ok ys => .ok (y :: ys)

/-- Modelled from the spec: the integrand builder — at each timestep the
integrand is the derivative value when the field near that time passes
the polarity gate and the characteristic energy is below the analysis
ceiling, and `0` otherwise.  Field lookups outside the record's span
raise `OutOfRangeError`. -/
def buildIntegrand (omni : List FieldSample) (t : List ℤ)
    (deriv eic : List ℚ) (reverse_effect : Bool) : Except Unit (List ℚ) :=
  mapME (fun (p : ℤ × ℚ × ℚ) =>
      match fieldAt omni p.1 with
      | .error e => .error e
      | .ok b =>
        .ok (if polarityGate reverse_effect b ∧ p.2.2 ≤ MAX_ENERGY_ANALYZED
             then p.2.1 else 0))
    (t.zip (deriv.zip eic))

/-- Modelled from the spec: the event walker's tunable thresholds —
entry test on an integrand sample, exit test on the running integral,
maximum interval duration, and the acceptance filter (minimum duration
and minimum peak-integral magnitude). -/
structure WalkerCfg where
  entry : ℚ → Bool
  exitC : ℚ → Bool
  maxDur : ℤ
  accept : ℤ → ℤ → ℚ → Bool

/-- The open candidate interval of the walker: start index, start
timestamp, running integral, and the peak (most negative) value the
running integral has reached. -/
structure OpenIv where
  s : Nat
  ts : ℤ
  r : ℚ
  peak : ℚ
  deriving Repr

/-- The walker's scan state: index of the next sample, previous
timestamp (for the elapsed-time weight), the open interval if any, and
the intervals emitted so far as `(start_index, end_index)` pairs. -/
structure WalkSt where
  k : Nat
  prevT : ℤ
  openI : Option OpenIv
  out : List (Nat × Nat)
  deriving Repr

/-- Modelled from the spec: one step of the event walker on the sample
`(tk, x)`.  In `IDLE` it opens an interval when the entry threshold is
crossed; in `ACCUMULATING` it integrates `x` with respect to elapsed
time and closes the interval (applying the acceptance filter) when the
exit condition holds or the maximum duration is reached. -/
def stepW (cfg : WalkerCfg) (st : WalkSt) (tk : ℤ) (x : ℚ) : WalkSt :=
  let dt : ℚ := ((tk - st.prevT : ℤ) : ℚ)
  match st.openI with
  | none =>
      if cfg.entry x then
        ⟨st.k + 1, tk, some ⟨st.k, tk, x * dt, x * dt⟩, st.out⟩
      else ⟨st.k + 1, tk, none, st.out⟩
  | some o =>
      let r := o.r + x * dt
      let pk := min o.peak r
      if cfg.exitC r || decide (cfg.maxDur ≤ tk - o.ts) then
        ⟨st.k + 1, tk, none,
         if cfg.accept o.ts tk pk then st.out ++ [(o.s, st.k)] else st.out⟩
      else ⟨st.k + 1, tk, some ⟨o.s, o.ts, r, pk⟩, st.out⟩

/-- The walker's left-to-right scan over the remaining samples. -/
def walkCore (cfg : WalkerCfg) (st : WalkSt) : List (ℤ × ℚ) → WalkSt
  | [] => st
  | (tk, x) :: rest => walkCore cfg (stepW cfg st tk x) rest

/-- The walker's initial state: `IDLE` at index 0, previous timestamp
seeded with the first sample's timestamp (so the first elapsed-time
weight is zero). -/
def initSt (xs : List (ℤ × ℚ)) : WalkSt :=
  ⟨0, ((xs.head?).map Prod.fst).getD 0, none, []⟩

/-- Modelled from the spec: the walker's terminal rule — an interval
still open when the series ends is force-closed at the last index and
evaluated by the same acceptance filter. -/
def finalizeW (cfg : WalkerCfg) (xs : List (ℤ × ℚ)) (st : WalkSt) :
    List (Nat × Nat) :=
  match st.openI with
  | none => st.out
  | some o =>
      if cfg.accept o.ts (((xs.getLast?).map Prod.fst).getD 0) o.peak then
        st.out ++ [(o.s, xs.length - 1)]
      else st.out

/-- Modelled from the spec: the full event walk over the timestamped
integrand series.  Returns the accepted intervals as
`(start_index, end_index)` pairs, in emission order. -/
def walk (cfg : WalkerCfg) (xs : List (ℤ × ℚ)) : List (Nat × Nat) :=
  finalizeW cfg xs (walkCore cfg (initSt xs) xs)

/-- Modelled from the spec: the concrete walker thresholds used by
`walk_and_integrate` (the spec leaves the numeric values open; only the
qualitative shape is load-bearing).  Entry on a negative integrand
sample, exit when the running integral decays back to `≥ 0`, maximum
duration `INTERVAL_LENGTH`, and acceptance by minimum duration and
minimum peak magnitude. -/
def walkerCfg : WalkerCfg where
  entry := fun x => decide (x < 0)
  exitC := fun r => decide (0 ≤ r)
  maxDur := INTERVAL_LENGTH
  accept := fun ts te pk =>
    decide (MIN_EVENT_DURATION ≤ te - ts) && decide (pk ≤ -MIN_INTEGRAL_MAGNITUDE)

/-- Modelled from the spec: the match summariser — converts one accepted
interval to a `MatchRecord` using the file's timestamps at the interval
bounds and the mean field components over `[start_time, end_time]`
(propagating `OutOfRangeError` from the field lookup fallback). -/
def summarize (omni : List FieldSample) (t : List ℤ) (iv : Nat × Nat) :
    Except Unit MatchRecord :=
  let ts := t.getD iv.1 0
  let te := t.getD iv.2 0
  match meanOver omni ts te with
  | .error e => .error e
  | .ok b => .ok ⟨ts, te, b.1, b.2.1, b.2.2⟩

/-- Modelled from the spec: `lib_search_dispersion.walk_and_integrate` —
builds the polarity-gated integrand, walks it for accepted intervals,
and summarises each into a row of the per-file match DataFrame (with no
`file` column yet).  `OutOfRangeError` from any field lookup
propagates. -/
def walk_and_integrate (fh : DmspFh) (omni : List FieldSample)
    (deriv eic : List ℚ) (maxDur : ℤ) (reverse_effect : Bool) :
    Except Unit Df :=
  match buildIntegrand omni fh.t deriv eic reverse_effect with
  | .error e => .error e
  | .ok integrand =>
    match mapME (summarize omni fh.t)
        (walk { walkerCfg with maxDur := maxDur } (fh.t.zip integrand)) with
    | .error e => .error e
    | .ok rows => .ok ⟨rows, none⟩

/-- The per-row plotting loop at the end of `search_events`
(`for _, row_match in df_match.iterrows(): ...`): its only effect on the
returned DataFrame is the late column assignment
`df_match['file'] = dmsp_file`, executed once per row and only when
plotting is enabled. -/
def plotLoop (df : Df) (no_plots : Bool) (dmsp_file : String) : Df :=
  df.rows.foldl
    (fun acc _ => if no_plots then acc else { acc with file := some dmsp_file })
    df

/-- The function `search_events` from `visualize_storm.py`.  The DMSP read result is
passed in already evaluated: `.error ()` stands for `read_dmsp_file`
raising `pycdf.CDFError`, which the function catches by returning `None`
(here `.ok none`).  Any `OutOfRangeError` raised by
`walk_and_integrate` is not caught and propagates to the caller
(`.error ()`). -/
def search_events (logT : ℚ → ℚ) (dmsp_read : Except Unit DmspFh)
    (omniweb_fh : List FieldSample) (no_plots reverse_effect : Bool)
    (dmsp_file : String) : Except Unit (Option Df) :=
  match dmsp_read with
  | .error _ => .ok none
  | .ok dmsp_fh =>
    match walk_and_integrate dmsp_fh omniweb_fh
        (estimate_log_Eic_smooth_derivative logT dmsp_fh).1
        (estimate_log_Eic_smooth_derivative logT dmsp_fh).2
        INTERVAL_LENGTH reverse_effect with
    | .error e => .error e
    | .ok df_match => .ok (some (plotLoop df_match no_plots dmsp_file))

/-- The call `pd.concat` over the collected per-file results, by its documented
semantics: `None` entries are dropped silently, and if no actual
DataFrame remains (all entries `None`, or an empty list) it raises
`ValueError`.  The surviving rows are concatenated in order. -/
def pdConcat (dfs : List (Option Df)) : Except Unit (List MatchRecord) :=
  if (dfs.filterMap id).isEmpty then .error ()
  else .ok ((dfs.filterMap id).map Df.rows).flatten

/-- The `start_time` ordering used by `df.sort_values('start_time')`. -/
def startLe (a b : MatchRecord) : Prop := a.start_time ≤ b.start_time

instance : DecidableRel startLe := fun a b => by
  unfold startLe; infer_instance

instance : IsTotal MatchRecord startLe :=
  ⟨fun a b => le_total a.start_time b.start_time⟩

instance : IsTrans MatchRecord startLe :=
  ⟨fun _ _ _ h₁ h₂ => le_trans h₁ h₂⟩

/-- The call `df.sort_values('start_time')`: a comparison sort of the rows by
`start_time` (pandas fixes no tie order; any sorted permutation is a
faithful model). -/
def sortValuesStartTime (rows : List MatchRecord) : List MatchRecord :=
  List.insertionSort startLe rows

/-- The tail of `main` after the per-file loop: the collected per-file
results are concatenated by `pd.concat`, sorted by `start_time`,
printed, and written to the CSV (printed table and CSV rows are the
same `df`). -/
def mainAfterCollect (df_matches : List (Option Df)) : Except Unit RunOut :=
  match pdConcat df_matches with
  | .error e => .error e
  | .ok rows =>
    .ok ⟨sortValuesStartTime rows, sortValuesStartTime rows⟩

/-- The function `main` from `visualize_storm.py`.  The case file's DMSP list is
passed as (file name, read result) pairs; each file is processed by
`search_events` in order (an uncaught exception from any file aborts the
whole run), then the results are concatenated, sorted and written by
`mainAfterCollect`. -/
def main (logT : ℚ → ℚ) (dmsp_files : List (String × Except Unit DmspFh))
    (omniweb_fh : List FieldSample) (no_plots reverse_effect : Bool) :
    Except Unit RunOut :=
  match mapME
      (fun (p : String × Except Unit DmspFh) =>
        search_events logT p.2 omniweb_fh no_plots reverse_effect p.1)
      dmsp_files with
  | .error e => .error e
  | .ok df_matches => mainAfterCollect df_matches

/-- The rows of each per-file DataFrame actually produced by a run (the
`None` results of failed files dropped), used to state what the CSV is a
rearrangement of. -/
def perFileRows (logT : ℚ → ℚ) (dmsp_files : List (String × Except Unit DmspFh))
    (omniweb_fh : List FieldSample) (no_plots reverse_effect : Bool) :
    Except Unit (List (List MatchRecord)) :=
  match mapME
      (fun (p : String × Except Unit DmspFh) =>
        search_events logT p.2 omniweb_fh no_plots reverse_effect p.1)
      dmsp_files with
  | .error e => .error e
  | .ok df_matches => .ok ((df_matches.filterMap id).map Df.rows)

/-- The call `np.searchsorted` (side `left`) as used on the sorted timestamp
array `dmsp_fh['t']`: the insertion index of `v`, i.e. the number of
elements strictly below `v`. -/
def searchsorted (t : List ℤ) (v : ℤ) : Nat :=
  t.countP (fun x => decide (x < v))

/-- The plot-window widening of `search_events` (lines 96–101):
`delta_index = int(0.50 * (j - i))`, then `i = max(i - delta_index, 0)`
and `j = min(j + delta_index, size - 1)`.  `int()` truncates toward
zero, hence `Int.tdiv`. -/
def plotWindow (size : Nat) (i j : Nat) : ℤ × ℤ :=
  let delta : ℤ := Int.tdiv ((j : ℤ) - (i : ℤ)) 2
  (max ((i : ℤ) - delta) 0, min ((j : ℤ) + delta) ((size : ℤ) - 1))

/-- A match record with its three mean field components negated and its
time bounds untouched — how a sign-flipped field record shows up in the
output. -/
def negRow (r : MatchRecord) : MatchRecord :=
  ⟨r.start_time, r.end_time, -r.Bx_mean, -r.By_mean, -r.Bz_mean⟩

/-- A per-file DataFrame with every row's mean field components
negated. -/
def flipDf (df : Df) : Df :=
  ⟨df.rows.map negRow, df.file⟩

/-- A concrete five-sample DMSP file: characteristic energy falling from
16 eV to 1 eV over four minutes, one sample per minute. -/
def fh6 : DmspFh :=
  ⟨[0, 60, 120, 180, 240], [16, 8, 4, 2, 1], [70, 71, 72, 73, 74]⟩

/-- A concrete field record covering `[0, 240]` with constant
`(Bx, By, Bz) = (5, -2, -8)` nT. -/
def omni6 : List FieldSample :=
  [⟨0, 5, -2, -8⟩, ⟨120, 5, -2, -8⟩, ⟨240, 5, -2, -8⟩]

/-- The one match the pipeline finds in `fh6` against `omni6` with
forward polarity. -/
def rec6 : MatchRecord := ⟨0, 240, 5, -2, -8⟩

/-- A concrete DMSP file with a single sample — fewer than the smoothing
window. -/
def fh1 : DmspFh := ⟨[0], [5], [1]⟩

/-- The walker's scan invariant: every emitted interval is well-formed
and closed strictly before the scan position, emitted intervals are
pairwise ordered with strictly separated index ranges, and any open
interval starts after every emitted interval ends (and before the scan
position). -/
def WalkInv (st : WalkSt) : Prop :=
  (∀ p ∈ st.out, p.1 ≤ p.2 ∧ p.2 < st.k) ∧
  st.out.Pairwise (fun a b => a.2 < b.1) ∧
  (∀ o, st.openI = some o → o.s < st.k ∧ ∀ p ∈ st.out, p.2 < o.s)

theorem mapME_nil {α β : Type} (f : α → Except Unit β) : mapME f [] = .ok [] := rfl

theorem mapME_cons {α β : Type} (f : α → Except Unit β) (x : α) (xs : List α) :
    mapME f (x :: xs) =
      match f x with
      | .error e => .error e
      | .ok y =>
        match mapME f xs with
        | .error e => .error e
        | .ok ys => .ok (y :: ys) := rfl

theorem mapME_append {α β : Type} (f : α → Except Unit β) (as bs : List α) :
    mapME f (as ++ bs) =
      match mapME f as with
      | .error e => .error e
      | .ok ys =>
        match mapME f bs with
        | .error e => .error e
        | .ok zs => .ok (ys ++ zs) := by
  induction as with
  | nil => cases h : mapME f bs <;> simp [mapME_nil, h]
  | cons a as ih =>
      simp only [List.cons_append, mapME_cons, ih]
      cases f a <;> cases mapME f as <;> cases mapME f bs <;> rfl

theorem mapME_error_of_mem {α β : Type} (f : α → Except Unit β) {l : List α}
    {x : α} (hx : x ∈ l) (hf : f x = .error ()) : mapME f l = .error () := by
  induction l with
  | nil => cases hx
  | cons a as ih =>
      rcases List.mem_cons.mp hx with h | h
      · subst h; simp [mapME_cons, hf]
      · rw [mapME_cons]
        cases hfa : f a with
        | error e => cases e; rfl
        | ok y => rw [ih h]

theorem mapME_ok_forall₂ {α β : Type} (f : α → Except Unit β) :
    ∀ {l : List α} {ys : List β}, mapME f l = .ok ys →
      List.Forall₂ (fun x y => f x = .ok y) l ys := by
  intro l
  induction l with
  | nil => intro ys h; cases h; exact List.Forall₂.nil
  | cons a as ih =>
      intro ys h
      rw [mapME_cons] at h
      cases hfa : f a with
      | error e => rw [hfa] at h; cases h
      | ok y =>
          rw [hfa] at h
          cases hrest : mapME f as with
          | error e => rw [hrest] at h; cases h
          | ok zs =>
              rw [hrest] at h
              cases h
              exact List.Forall₂.cons hfa (ih hrest)

theorem mapME_congr {α β : Type} {f g : α → Except Unit β} :
    ∀ {l : List α}, (∀ x ∈ l, f x = g x) → mapME f l = mapME g l := by
  intro l
  induction l with
  | nil => intro _; rfl
  | cons a as ih =>
      intro h
      rw [mapME_cons, mapME_cons, h a (List.mem_cons_self _ _),
        ih (fun x hx => h x (List.mem_cons_of_mem a hx))]

theorem mapME_map_except {α β γ : Type} (f : α → Except Unit β) (g : β → γ) :
    ∀ (l : List α),
      mapME (fun x => (f x).map g) l = (mapME f l).map (List.map g) := by
  intro l
  induction l with
  | nil => rfl
  | cons a as ih =>
      rw [mapME_cons, mapME_cons, ih]
      cases f a <;> cases mapME f as <;> rfl

theorem forall₂_mem_right {α β : Type} {R : α → β → Prop} :
    ∀ {xs : List α} {ys : List β}, List.Forall₂ R xs ys → ∀ {y}, y ∈ ys →
      ∃ x ∈ xs, R x y := by
  intro xs ys h
  induction h with
  | nil => intro y hy; cases hy
  | cons hab _ ih =>
      intro y hy
      rcases List.mem_cons.mp hy with h | h
      · subst h; exact ⟨_, List.mem_cons_self _ _, hab⟩
      · rcases ih h with ⟨x, hx, hR⟩
        exact ⟨x, List.mem_cons_of_mem _ hx, hR⟩

theorem pairwise_transfer {α β : Type} {R : α → β → Prop} {P : α → α → Prop}
    {Q : β → β → Prop}
    (hPQ : ∀ a b a' b', R a a' → R b b' → P a b → Q a' b') :
    ∀ {xs : List α} {ys : List β}, List.Forall₂ R xs ys → xs.Pairwise P →
      ys.Pairwise Q := by
  intro xs ys h
  induction h with
  | nil => intro _; exact List.Pairwise.nil
  | @cons a b as bs hab hrest ih =>
      intro hp
      rcases List.pairwise_cons.mp hp with ⟨hhead, htail⟩
      refine List.pairwise_cons.mpr ⟨?_, ih htail⟩
      intro b' hb'
      rcases forall₂_mem_right hrest hb' with ⟨a', ha', hR⟩
      exact hPQ a a' b b' hab hR (hhead a' ha')

theorem pairwise_and_forall {α : Type} {P : α → α → Prop} {F : α → Prop} :
    ∀ {l : List α}, l.Pairwise P → (∀ x ∈ l, F x) →
      l.Pairwise (fun a b => F a ∧ F b ∧ P a b) := by
  intro l
  induction l with
  | nil => intro _ _; exact List.Pairwise.nil
  | cons a as ih =>
      intro hp hf
      rcases List.pairwise_cons.mp hp with ⟨hhead, htail⟩
      refine List.pairwise_cons.mpr ⟨?_, ih htail fun x hx =>
        hf x (List.mem_cons_of_mem a hx)⟩
      intro b hb
      exact ⟨hf a (List.mem_cons_self _ _), hf b (List.mem_cons_of_mem a hb), hhead b hb⟩

theorem foldl_file_rows (no_plots : Bool) (dmsp_file : String) :
    ∀ (l : List MatchRecord) (acc : Df),
      (l.foldl
        (fun acc _ =>
          if no_plots then acc else { acc with file := some dmsp_file })
        acc).rows = acc.rows := by
  intro l
  induction l with
  | nil => intro acc; rfl
  | cons r rs ih =>
      intro acc
      rw [List.foldl_cons, ih]
      split <;> rfl

theorem plotLoop_rows (df : Df) (no_plots : Bool) (dmsp_file : String) :
    (plotLoop df no_plots dmsp_file).rows = df.rows := by
  unfold plotLoop
  exact foldl_file_rows no_plots dmsp_file df.rows df

theorem plotLoop_no_plots (df : Df) (dmsp_file : String) :
    plotLoop df true dmsp_file = df := by
  unfold plotLoop
  generalize df.rows = l
  induction l with
  | nil => rfl
  | cons r rs ih => rw [List.foldl_cons]; exact ih

theorem plotLoop_nil_rows (df : Df) (no_plots : Bool) (dmsp_file : String)
    (h : df.rows = []) : plotLoop df no_plots dmsp_file = df := by
  unfold plotLoop
  rw [h]
  rfl

end DmspStorm

namespace DmspStorm

theorem stepW_inv (cfg : WalkerCfg) (st : WalkSt) (tk : ℤ) (x : ℚ)
    (h : WalkInv st) : WalkInv (stepW cfg st tk x) := by
  obtain ⟨k, pT, openI, out⟩ := st
  obtain ⟨hout, hpw, hopen⟩ := h
  cases openI with
  | none =>
      simp only [stepW]
      split
      · exact ⟨fun p hp => ⟨(hout p hp).1, Nat.lt_succ_of_lt (hout p hp).2⟩,
          hpw,
          fun o ho => by
            cases ho
            exact ⟨Nat.lt_succ_self k, fun p hp => (hout p hp).2⟩⟩
      · exact ⟨fun p hp => ⟨(hout p hp).1, Nat.lt_succ_of_lt (hout p hp).2⟩,
          hpw, fun o ho => by cases ho⟩
  | some o =>
      obtain ⟨hos, hoout⟩ := hopen o rfl
      simp only [stepW]
      split
      · refine ⟨?_, ?_, fun o' ho' => by cases ho'⟩
        · intro p hp
          split at hp
          · rcases List.mem_append.mp hp with h | h
            · exact ⟨(hout p h).1, Nat.lt_succ_of_lt (hout p h).2⟩
            · rcases List.mem_singleton.mp h with rfl
              exact ⟨Nat.le_of_lt hos, Nat.lt_succ_self k⟩
          · exact ⟨(hout p hp).1, Nat.lt_succ_of_lt (hout p hp).2⟩
        · split
          · refine List.pairwise_append.mpr ⟨hpw, List.pairwise_singleton _ _, ?_⟩
            intro a ha b hb
            rcases List.mem_singleton.mp hb with rfl
            exact hoout a ha
          · exact hpw
      · refine ⟨fun p hp => ⟨(hout p hp).1, Nat.lt_succ_of_lt (hout p hp).2⟩,
          hpw, fun o' ho' => ?_⟩
        cases ho'
        exact ⟨Nat.lt_succ_of_lt hos, hoout⟩

theorem walkCore_inv (cfg : WalkerCfg) :
    ∀ (xs : List (ℤ × ℚ)) (st : WalkSt), WalkInv st →
      WalkInv (walkCore cfg st xs) := by
  intro xs
  induction xs with
  | nil => intro st h; exact h
  | cons p rest ih =>
      intro st h
      exact ih (stepW cfg st p.1 p.2) (stepW_inv cfg st p.1 p.2 h)

theorem stepW_k (cfg : WalkerCfg) (st : WalkSt) (tk : ℤ) (x : ℚ) :
    (stepW cfg st tk x).k = st.k + 1 := by
  obtain ⟨k, pT, openI, out⟩ := st
  cases openI <;> simp only [stepW] <;> split <;> rfl

theorem walkCore_k (cfg : WalkerCfg) :
    ∀ (xs : List (ℤ × ℚ)) (st : WalkSt),
      (walkCore cfg st xs).k = st.k + xs.length := by
  intro xs
  induction xs with
  | nil => intro st; rfl
  | cons p rest ih =>
      intro st
      rw [walkCore, ih, stepW_k]
      simp only [List.length_cons]
      omega

theorem initSt_inv (xs : List (ℤ × ℚ)) : WalkInv (initSt xs) :=
  ⟨fun p hp => absurd hp (List.not_mem_nil p), List.Pairwise.nil,
   fun o ho => by cases ho⟩

/-- The event walker emits only well-formed, in-range intervals, and
they are pairwise separated: each interval ends strictly before the
next begins. -/
theorem walk_bounds_pairwise (cfg : WalkerCfg) (xs : List (ℤ × ℚ)) :
    (∀ p ∈ walk cfg xs, p.1 ≤ p.2 ∧ p.2 < xs.length) ∧
    (walk cfg xs).Pairwise (fun a b => a.2 < b.1) := by
  have hinv := walkCore_inv cfg xs (initSt xs) (initSt_inv xs)
  have hk : (walkCore cfg (initSt xs) xs).k = xs.length := by
    rw [walkCore_k]; simp [initSt]
  unfold walk
  generalize hst : walkCore cfg (initSt xs) xs = st at hinv hk ⊢
  obtain ⟨k, pT, op, out⟩ := st
  obtain ⟨hout, hpw, hopen⟩ := hinv
  simp only at hk
  subst hk
  cases op with
  | none =>
      exact ⟨fun p hp => hout p hp, hpw⟩
  | some o =>
      obtain ⟨hos, hoout⟩ := hopen o rfl
      simp only at hos hoout hout hpw
      simp only [finalizeW]
      split
      · constructor
        · intro p hp
          rcases List.mem_append.mp hp with h | h
          · exact hout p h
          · rcases List.mem_singleton.mp h with rfl
            exact ⟨by omega, by omega⟩
        · refine List.pairwise_append.mpr ⟨hpw, List.pairwise_singleton _ _, ?_⟩
          intro a ha b hb
          rcases List.mem_singleton.mp hb with rfl
          exact hoout a ha
      · exact ⟨fun p hp => hout p hp, hpw⟩

theorem summarize_times (omni : List FieldSample) (t : List ℤ)
    (iv : Nat × Nat) (r : MatchRecord)
    (h : summarize omni t iv = .ok r) :
    r.start_time = t.getD iv.1 0 ∧ r.end_time = t.getD iv.2 0 := by
  simp only [summarize] at h
  cases hm : meanOver omni (t.getD iv.1 0) (t.getD iv.2 0) with
  | error e => rw [hm] at h; cases h
  | ok b => rw [hm] at h; cases h; exact ⟨rfl, rfl⟩

theorem getD_lt_of_sorted {t : List ℤ} (ht : t.Sorted (· < ·)) {i j : Nat}
    (hij : i < j) (hj : j < t.length) : t.getD i 0 < t.getD j 0 := by
  have hi : i < t.length := lt_trans hij hj
  rw [List.getD_eq_getElem t 0 hi, List.getD_eq_getElem t 0 hj]
  exact List.pairwise_iff_getElem.mp ht i j hi hj hij

theorem getD_le_of_sorted {t : List ℤ} (ht : t.Sorted (· < ·)) {i j : Nat}
    (hij : i ≤ j) (hj : j < t.length) : t.getD i 0 ≤ t.getD j 0 := by
  rcases Nat.lt_or_ge i j with h | h
  · exact le_of_lt (getD_lt_of_sorted ht h hj)
  · have : i = j := Nat.le_antisymm hij h
    rw [this]

end DmspStorm

namespace DmspStorm

theorem walk_and_integrate_ok {fh : DmspFh} {omni : List FieldSample}
    {deriv eic : List ℚ} {maxDur : ℤ} {rev : Bool} {df : Df}
    (h : walk_and_integrate fh omni deriv eic maxDur rev = .ok df) :
    ∃ integrand rows,
      buildIntegrand omni fh.t deriv eic rev = .ok integrand ∧
      mapME (summarize omni fh.t)
        (walk { walkerCfg with maxDur := maxDur } (fh.t.zip integrand)) =
        .ok rows ∧
      df = ⟨rows, none⟩ := by
  unfold walk_and_integrate at h
  split at h
  · cases h
  · rename_i integrand hbi
    split at h
    · cases h
    · rename_i rows hm
      cases h
      exact ⟨integrand, rows, hbi, hm, rfl⟩

theorem search_events_ok_inv {logT : ℚ → ℚ} {fh : DmspFh}
    {omni : List FieldSample} {np rev : Bool} {nm : String} {df : Df}
    (h : search_events logT (.ok fh) omni np rev nm = .ok (some df)) :
    ∃ df₀, walk_and_integrate fh omni
        (estimate_log_Eic_smooth_derivative logT fh).1
        (estimate_log_Eic_smooth_derivative logT fh).2
        INTERVAL_LENGTH rev = .ok df₀ ∧
      df = plotLoop df₀ np nm := by
  simp only [search_events] at h
  split at h
  · cases h
  · rename_i df₀ hw
    injection h with h1
    injection h1 with h2
    exact ⟨df₀, hw, h2.symm⟩

/-- Claim C1: for every valid per-file input (sorted timestamp series),
the match records `search_events` returns for that file are ordered by
`start_time` and pairwise disjoint in time — each record's whole
interval ends strictly before the next record's interval starts, so no
two intervals share a timestep. -/
theorem search_events_rows_disjoint_sorted
    (logT : ℚ → ℚ) (fh : DmspFh) (omni : List FieldSample)
    (np rev : Bool) (nm : String) (df : Df)
    (hsort : fh.t.Sorted (· < ·))
    (hrun : search_events logT (.ok fh) omni np rev nm = .ok (some df)) :
    df.rows.Pairwise
      (fun a b => a.start_time < b.start_time ∧ a.end_time < b.start_time) := by
  obtain ⟨df₀, hw, hdf⟩ := search_events_ok_inv hrun
  obtain ⟨integ, rows, hbi, hm, hdf₀⟩ := walk_and_integrate_ok hw
  have hrows : df.rows = rows := by rw [hdf, plotLoop_rows, hdf₀]
  rw [hrows]
  have hwalk := walk_bounds_pairwise
    { walkerCfg with maxDur := INTERVAL_LENGTH } (fh.t.zip integ)
  have hf₂ := mapME_ok_forall₂ _ hm
  have hxslen : (fh.t.zip integ).length ≤ fh.t.length := by
    rw [List.length_zip]; exact min_le_left _ _
  have hpw' := pairwise_and_forall hwalk.2 hwalk.1
  refine pairwise_transfer ?_ hf₂ hpw'
  rintro a b a' b' hRa hRb ⟨Fa, Fb, hab⟩
  obtain ⟨ha1, ha2⟩ := summarize_times _ _ _ _ hRa
  obtain ⟨hb1, hb2⟩ := summarize_times _ _ _ _ hRb
  have ha2len : a.2 < fh.t.length := lt_of_lt_of_le Fa.2 hxslen
  have hb2len : b.2 < fh.t.length := lt_of_lt_of_le Fb.2 hxslen
  have hb1len : b.1 < fh.t.length := lt_of_le_of_lt Fb.1 hb2len
  constructor
  · rw [ha1, hb1]
    exact lt_of_le_of_lt (getD_le_of_sorted hsort Fa.1 ha2len)
      (getD_lt_of_sorted hsort hab hb1len)
  · rw [ha2, hb1]
    exact getD_lt_of_sorted hsort hab hb1len

/-- Witness for claim C1 at a concrete input: a five-sample file whose
run finds exactly one match. -/
theorem search_events_rows_disjoint_sorted_witness :
    fh6.t.Sorted (· < ·) ∧
    search_events id (.ok fh6) omni6 true false "f" = .ok (some ⟨[rec6], none⟩) ∧
    (Df.mk [rec6] none).rows.Pairwise
      (fun a b => a.start_time < b.start_time ∧ a.end_time < b.start_time) := by
  have hs : fh6.t.Sorted (· < ·) := by decide
  have hr : search_events id (.ok fh6) omni6 true false "f" =
      .ok (some ⟨[rec6], none⟩) := by
    norm_num [search_events, walk_and_integrate, buildIntegrand, mapME,
      estimate_log_Eic_smooth_derivative, fieldAt, meanOver, summarize, walk,
      walkCore, stepW, initSt, finalizeW, plotLoop, polarityGate, walkerCfg,
      SMOOTH_WINDOW, MAX_ENERGY_ANALYZED, INTERVAL_LENGTH, MIN_EVENT_DURATION,
      MIN_INTEGRAL_MAGNITUDE, fh6, omni6, rec6, List.range_succ]
  exact ⟨hs, hr,
    search_events_rows_disjoint_sorted id fh6 omni6 true false "f" _ hs hr⟩

end DmspStorm

namespace DmspStorm

/-- Claim C5: the per-file pipeline is deterministic — two runs of
`search_events` on identical inputs (same read DMSP contents, same
omniweb record, same flags) return identical results; there is no
hidden state. -/
theorem search_events_deterministic
    (logT logT' : ℚ → ℚ) (rd rd' : Except Unit DmspFh)
    (omni omni' : List FieldSample) (np np' rev rev' : Bool)
    (nm nm' : String)
    (h₀ : logT = logT') (h₁ : rd = rd') (h₂ : omni = omni')
    (h₃ : np = np') (h₄ : rev = rev') (h₅ : nm = nm') :
    search_events logT rd omni np rev nm =
      search_events logT' rd' omni' np' rev' nm' := by
  subst h₀ h₁ h₂ h₃ h₄ h₅
  rfl

/-- Witness for claim C5 at a concrete input. -/
theorem search_events_deterministic_witness :
    search_events id (.ok fh1) omni6 true false "f" =
      search_events id (.ok fh1) omni6 true false "f" :=
  search_events_deterministic id id (.ok fh1) (.ok fh1) omni6 omni6
    true true false false "f" "f" rfl rfl rfl rfl rfl rfl

/-- Claim C7: when the characteristic-energy series has fewer samples
than the smoothing window, the derivative estimator returns an empty
derivative series and `search_events` returns an empty match DataFrame
for that file without raising. -/
theorem few_samples_zero_events
    (logT : ℚ → ℚ) (fh : DmspFh) (omni : List FieldSample)
    (np rev : Bool) (nm : String)
    (h : fh.eic.length < SMOOTH_WINDOW) :
    (estimate_log_Eic_smooth_derivative logT fh).1 = [] ∧
    search_events logT (.ok fh) omni np rev nm = .ok (some ⟨[], none⟩) := by
  have hest : estimate_log_Eic_smooth_derivative logT fh = ([], fh.eic) := by
    unfold estimate_log_Eic_smooth_derivative
    rw [if_pos h]
  refine ⟨by rw [hest], ?_⟩
  simp [search_events, walk_and_integrate, buildIntegrand, hest, mapME,
    walk, walkCore, initSt, finalizeW, plotLoop]

/-- Witness for claim C7 at a concrete single-sample file. -/
theorem few_samples_zero_events_witness :
    fh1.eic.length < SMOOTH_WINDOW ∧
    ((estimate_log_Eic_smooth_derivative id fh1).1 = [] ∧
     search_events id (.ok fh1) omni6 true false "f" = .ok (some ⟨[], none⟩)) :=
  ⟨by decide, few_samples_zero_events id fh1 omni6 true false "f" (by decide)⟩

theorem pdConcat_none_mid (ys zs : List (Option Df)) :
    pdConcat (ys ++ none :: zs) = pdConcat (ys ++ zs) := by
  unfold pdConcat
  rw [List.filterMap_append, List.filterMap_append, List.filterMap_cons]
  rfl

/-- Claim C3: a DMSP file whose read raises `pycdf.CDFError` is fatal
for that file only — `search_events` returns `None` (no event records),
no exception escapes, and the rest of the run is exactly the run
without that file. -/
theorem bad_file_skipped
    (logT : ℚ → ℚ) (omni : List FieldSample) (np rev : Bool) (nm : String)
    (pre suf : List (String × Except Unit DmspFh)) :
    search_events logT (.error ()) omni np rev nm = .ok none ∧
    main logT (pre ++ (nm, .error ()) :: suf) omni np rev =
      main logT (pre ++ suf) omni np rev := by
  refine ⟨rfl, ?_⟩
  unfold main
  rw [mapME_append, mapME_append, mapME_cons]
  cases hpre : mapME
      (fun p : String × Except Unit DmspFh =>
        search_events logT p.2 omni np rev p.1) pre with
  | error e => rfl
  | ok ys =>
      cases hsuf : mapME
          (fun p : String × Except Unit DmspFh =>
            search_events logT p.2 omni np rev p.1) suf with
      | error e => rfl
      | ok zs =>
          show mainAfterCollect (ys ++ none :: zs) = mainAfterCollect (ys ++ zs)
          unfold mainAfterCollect
          rw [pdConcat_none_mid]

/-- Counterexample to claim C4: a per-file failure other than
`CDFError` (here an `OutOfRangeError` caused by an empty field record)
escapes `search_events` uncaught and crashes the whole run — `main`
errors instead of completing and writing its CSV. -/
theorem per_file_failure_crashes_run :
    search_events id (.ok fh6) [] true false "f" = .error () ∧
    main id [("f", .ok fh6)] [] true false = .error () :=
  ⟨rfl, rfl⟩

/-- Claim C4 (amended): only `pycdf.CDFError` raised while reading the
DMSP file is caught — and inside `search_events`, not at the file-loop
boundary; any other per-file failure (such as `OutOfRangeError`)
propagates out of `search_events` and crashes the whole run before any
CSV is written. -/
theorem only_cdferror_caught :
    (∀ (logT : ℚ → ℚ) omni (np rev : Bool) nm,
      search_events logT (.error ()) omni np rev nm = .ok none) ∧
    (∀ (logT : ℚ → ℚ) (files : List (String × Except Unit DmspFh)) omni
      (np rev : Bool) (p : String × Except Unit DmspFh), p ∈ files →
      search_events logT p.2 omni np rev p.1 = .error () →
      main logT files omni np rev = .error ()) := by
  refine ⟨fun _ _ _ _ _ => rfl, ?_⟩
  intro logT files omni np rev p hp hse
  unfold main
  rw [mapME_error_of_mem _ hp hse]

/-- Witness for claim C4's amended statement at a concrete input. -/
theorem only_cdferror_caught_witness :
    ((("f", (.ok fh6 : Except Unit DmspFh)) ∈
        [(("f", (.ok fh6 : Except Unit DmspFh)) : String × Except Unit DmspFh)]) ∧
      search_events id (.ok fh6) [] true false "f" = .error ()) ∧
    main id [("f", .ok fh6)] [] true false = .error () :=
  ⟨⟨List.mem_singleton.mpr rfl, rfl⟩,
   only_cdferror_caught.2 id [("f", .ok fh6)] [] true false ("f", .ok fh6)
     (List.mem_singleton.mpr rfl) rfl⟩

/-- Claim C8: when `read_dmsp_file` raises `pycdf.CDFError`,
`search_events` returns `None` (not an empty DataFrame), and a run in
which every DMSP file fails this way crashes in `pd.concat` — `main`
errors and never writes the CSV. -/
theorem all_files_failed_no_csv :
    (∀ (logT : ℚ → ℚ) omni (np rev : Bool) nm,
      search_events logT (.error ()) omni np rev nm = .ok none) ∧
    (∀ (logT : ℚ → ℚ) (files : List (String × Except Unit DmspFh)) omni
      (np rev : Bool), (∀ q ∈ files, q.2 = .error ()) →
      main logT files omni np rev = .error ()) := by
  refine ⟨fun _ _ _ _ _ => rfl, ?_⟩
  intro logT files omni np rev hall
  unfold main
  have hmap : mapME
      (fun p : String × Except Unit DmspFh =>
        search_events logT p.2 omni np rev p.1) files =
      .ok (files.map fun _ => none) := by
    induction files with
    | nil => rfl
    | cons q qs ih =>
        have hq : q.2 = .error () := hall q (List.mem_cons_self _ _)
        rw [mapME_cons,
          show search_events logT q.2 omni np rev q.1 = .ok none by rw [hq]; rfl,
          ih fun x hx => hall x (List.mem_cons_of_mem _ hx)]
        rfl
  rw [hmap]
  show mainAfterCollect (files.map fun _ => none) = .error ()
  unfold mainAfterCollect pdConcat
  have hnil : (files.map fun _ => (none : Option Df)).filterMap id = [] := by
    rw [List.filterMap_eq_nil_iff]
    intro a ha
    rcases List.mem_map.mp ha with ⟨_, _, rfl⟩
    rfl
  rw [hnil]
  rfl

/-- Witness for claim C8 at a concrete all-failing run. -/
theorem all_files_failed_no_csv_witness :
    (∀ q ∈ ([("a", .error ()), ("b", .error ())] :
        List (String × Except Unit DmspFh)), q.2 = .error ()) ∧
    main id [("a", .error ()), ("b", .error ())] omni6 true false =
      .error () := by
  have hall : ∀ q ∈ ([("a", .error ()), ("b", .error ())] :
      List (String × Except Unit DmspFh)), q.2 = .error () := by
    intro q hq
    rcases List.mem_cons.mp hq with rfl | hq
    · rfl
    · rcases List.mem_cons.mp hq with rfl | hq
      · rfl
      · cases hq
  exact ⟨hall, all_files_failed_no_csv.2 id _ omni6 true false hall⟩

/-- Claim C9: the `file` column is assigned only inside the per-match
plotting loop and only when plotting is enabled — with `no_plots=True`,
or with zero matches, the returned DataFrame has no `file` column; and
the plotting loop leaves the match rows themselves unchanged. -/
theorem file_column_only_when_plotting :
    (∀ (logT : ℚ → ℚ) (fh : DmspFh) omni (rev : Bool) nm (df : Df),
      search_events logT (.ok fh) omni true rev nm = .ok (some df) →
      df.file = none) ∧
    (∀ (logT : ℚ → ℚ) (fh : DmspFh) omni (np rev : Bool) nm (df : Df),
      search_events logT (.ok fh) omni np rev nm = .ok (some df) →
      df.rows = [] → df.file = none) ∧
    (∀ (df : Df) (np : Bool) (nm : String),
      (plotLoop df np nm).rows = df.rows) := by
  refine ⟨?_, ?_, fun df np nm => plotLoop_rows df np nm⟩
  · intro logT fh omni rev nm df h
    obtain ⟨df₀, hw, hdf⟩ := search_events_ok_inv h
    obtain ⟨_, _, _, _, hdf₀⟩ := walk_and_integrate_ok hw
    rw [hdf, plotLoop_no_plots, hdf₀]
  · intro logT fh omni np rev nm df h hrows
    obtain ⟨df₀, hw, hdf⟩ := search_events_ok_inv h
    obtain ⟨_, _, _, _, hdf₀⟩ := walk_and_integrate_ok hw
    have h0 : df₀.rows = [] := by
      rw [← plotLoop_rows df₀ np nm, ← hdf, hrows]
    rw [hdf, plotLoop_nil_rows _ _ _ h0, hdf₀]

/-- Witness for claim C9 at a concrete `no_plots=True` run. -/
theorem file_column_only_when_plotting_witness :
    search_events id (.ok fh1) omni6 true false "e" =
      .ok (some ⟨[], none⟩) ∧
    (Df.mk [] none).file = none := by
  have h : search_events id (.ok fh1) omni6 true false "e" =
      .ok (some ⟨[], none⟩) := rfl
  exact ⟨h, file_column_only_when_plotting.1 id fh1 omni6 false "e" _ h⟩

end DmspStorm

namespace DmspStorm

/-- Claim C2: whenever `main` completes, the printed table and the CSV
rows coincide, and they are exactly the concatenation of the per-file
match sequences (failed files contributing nothing), rearranged into
`start_time` order. -/
theorem main_concat_sort_csv
    (logT : ℚ → ℚ) (files : List (String × Except Unit DmspFh))
    (omni : List FieldSample) (np rev : Bool) (out : RunOut)
    (h : main logT files omni np rev = .ok out) :
    out.printed = out.csv ∧
    ∃ rss, perFileRows logT files omni np rev = .ok rss ∧
      out.csv.Perm rss.flatten ∧ out.csv.Sorted startLe := by
  unfold main at h
  split at h
  · cases h
  · rename_i dfs hmap
    unfold mainAfterCollect at h
    split at h
    · cases h
    · rename_i rows hrows
      cases h
      refine ⟨rfl, (dfs.filterMap id).map Df.rows, ?_, ?_, ?_⟩
      · unfold perFileRows
        rw [hmap]
      · have hfl : rows = ((dfs.filterMap id).map Df.rows).flatten := by
          unfold pdConcat at hrows
          split at hrows
          · cases hrows
          · injection hrows with h'
            exact h'.symm
        rw [← hfl]
        exact List.perm_insertionSort startLe rows
      · exact List.sorted_insertionSort startLe rows

/-- Witness for claim C2 at a concrete one-file run. -/
theorem main_concat_sort_csv_witness :
    main id [("e", .ok fh1)] omni6 true false = .ok ⟨[], []⟩ ∧
    ((RunOut.mk [] []).printed = (RunOut.mk [] []).csv ∧
     ∃ rss, perFileRows id [("e", .ok fh1)] omni6 true false = .ok rss ∧
       (RunOut.mk [] []).csv.Perm rss.flatten ∧
       (RunOut.mk [] []).csv.Sorted startLe) := by
  have h : main id [("e", .ok fh1)] omni6 true false = .ok ⟨[], []⟩ := rfl
  exact ⟨h, main_concat_sort_csv id _ omni6 true false _ h⟩

theorem searchsorted_mono (t : List ℤ) {v w : ℤ} (h : v ≤ w) :
    searchsorted t v ≤ searchsorted t w := by
  unfold searchsorted
  apply List.countP_mono_left
  intro x _ hx
  simp only [decide_eq_true_eq] at hx ⊢
  exact lt_of_lt_of_le hx h

/-- Claim C10: for a match row whose `searchsorted` indices both land
inside the timestamp series (as happens when `start_time` and
`end_time` lie strictly within the file's time range), the widened and
clamped plot-window indices satisfy `0 ≤ i` and `j ≤ size - 1`, so the
`mlat[i]`, `mlat[j]` accesses (and the `[i:j]` slices) are in
bounds. -/
theorem plot_window_in_bounds (t : List ℤ) (mlat : List ℚ) (st et : ℤ)
    (hlen : mlat.length = t.length) (hste : st ≤ et)
    (hi : searchsorted t st < t.length) (hj : searchsorted t et < t.length) :
    0 ≤ (plotWindow t.length (searchsorted t st) (searchsorted t et)).1 ∧
    (plotWindow t.length (searchsorted t st) (searchsorted t et)).2 ≤
      (t.length : ℤ) - 1 ∧
    ((plotWindow t.length (searchsorted t st) (searchsorted t et)).1).toNat <
      mlat.length ∧
    ((plotWindow t.length (searchsorted t st) (searchsorted t et)).2).toNat <
      mlat.length := by
  have hij : searchsorted t st ≤ searchsorted t et := searchsorted_mono t hste
  rw [hlen]
  have hpw : ∀ (size i j : Nat), plotWindow size i j =
      (max ((i : ℤ) - Int.tdiv ((j : ℤ) - (i : ℤ)) 2) 0,
       min ((j : ℤ) + Int.tdiv ((j : ℤ) - (i : ℤ)) 2) ((size : ℤ) - 1)) :=
    fun _ _ _ => rfl
  rw [hpw]
  dsimp only
  set i := searchsorted t st with hi₀
  set j := searchsorted t et with hj₀
  set n := t.length with hn₀
  have hd : 0 ≤ Int.tdiv ((j : ℤ) - (i : ℤ)) 2 := by
    apply Int.tdiv_nonneg _ (by norm_num)
    have : (i : ℤ) ≤ (j : ℤ) := by exact_mod_cast hij
    omega
  set d := Int.tdiv ((j : ℤ) - (i : ℤ)) 2 with hd₀
  have hi' : (i : ℤ) < (n : ℤ) := by exact_mod_cast hi
  have hj' : (j : ℤ) < (n : ℤ) := by exact_mod_cast hj
  refine ⟨le_max_right _ _, min_le_right _ _, ?_, ?_⟩ <;> omega

/-- Witness for claim C10 at a concrete four-sample series. -/
theorem plot_window_in_bounds_witness :
    (([1, 2, 3, 4] : List ℚ).length = ([0, 10, 20, 30] : List ℤ).length ∧
     (5 : ℤ) ≤ 25 ∧
     searchsorted [0, 10, 20, 30] 5 < ([0, 10, 20, 30] : List ℤ).length ∧
     searchsorted [0, 10, 20, 30] 25 < ([0, 10, 20, 30] : List ℤ).length) ∧
    (0 ≤ (plotWindow ([0, 10, 20, 30] : List ℤ).length
        (searchsorted [0, 10, 20, 30] 5) (searchsorted [0, 10, 20, 30] 25)).1 ∧
     (plotWindow ([0, 10, 20, 30] : List ℤ).length
        (searchsorted [0, 10, 20, 30] 5) (searchsorted [0, 10, 20, 30] 25)).2 ≤
        (([0, 10, 20, 30] : List ℤ).length : ℤ) - 1 ∧
     ((plotWindow ([0, 10, 20, 30] : List ℤ).length
        (searchsorted [0, 10, 20, 30] 5) (searchsorted [0, 10, 20, 30] 25)).1).toNat <
        ([1, 2, 3, 4] : List ℚ).length ∧
     ((plotWindow ([0, 10, 20, 30] : List ℤ).length
        (searchsorted [0, 10, 20, 30] 5) (searchsorted [0, 10, 20, 30] 25)).2).toNat <
        ([1, 2, 3, 4] : List ℚ).length) :=
  ⟨⟨by decide, by decide, by decide, by decide⟩,
   plot_window_in_bounds [0, 10, 20, 30] [1, 2, 3, 4] 5 25
     (by decide) (by decide) (by decide) (by decide)⟩

end DmspStorm

namespace DmspStorm

theorem foldl_nearest_map (tq : ℤ) :
    ∀ (l : List FieldSample) (b : FieldSample),
      (l.map fNeg).foldl
        (fun b s => if |s.t - tq| < |b.t - tq| then s else b) (fNeg b) =
      fNeg (l.foldl (fun b s => if |s.t - tq| < |b.t - tq| then s else b) b) := by
  intro l
  induction l with
  | nil => intro b; rfl
  | cons s rest ih =>
      intro b
      rw [List.map_cons, List.foldl_cons, List.foldl_cons]
      simp only [show (fNeg s).t = s.t from rfl, show (fNeg b).t = b.t from rfl]
      rw [show (if |s.t - tq| < |b.t - tq| then fNeg s else fNeg b) =
          fNeg (if |s.t - tq| < |b.t - tq| then s else b) from
        (apply_ite fNeg _ s b).symm]
      exact ih _

theorem fieldAt_flip (rec : List FieldSample) (tq : ℤ) :
    fieldAt (flipRecord rec) tq = (fieldAt rec tq).map neg3 := by
  cases rec with
  | nil => rfl
  | cons s₀ rest =>
      show fieldAt (fNeg s₀ :: rest.map fNeg) tq = (fieldAt (s₀ :: rest) tq).map neg3
      simp only [fieldAt]
      have hlast : ((rest.map fNeg).getLastD (fNeg s₀)).t = (rest.getLastD s₀).t := by
        rw [List.getLastD_map]; rfl
      have hhead : (fNeg s₀).t = s₀.t := rfl
      rw [hlast, hhead]
      by_cases hc : tq < s₀.t ∨ (rest.getLastD s₀).t < tq
      · rw [if_pos hc, if_pos hc]
        rfl
      · rw [if_neg hc, if_neg hc]
        rw [show (fNeg s₀ :: rest.map fNeg).foldl
              (fun b s => if |s.t - tq| < |b.t - tq| then s else b) (fNeg s₀) =
            fNeg ((s₀ :: rest).foldl
              (fun b s => if |s.t - tq| < |b.t - tq| then s else b) s₀) by
          rw [← List.map_cons]
          exact foldl_nearest_map tq (s₀ :: rest) s₀]
        rfl

end DmspStorm

namespace DmspStorm

theorem sum_map_neg {α : Type} (l : List α) (g : α → ℚ) :
    (l.map fun x => -(g x)).sum = -((l.map g).sum) := by
  induction l with
  | nil => simp
  | cons a as ih =>
      simp [ih]
      ring

theorem isEmpty_map {α β : Type} (f : α → β) (l : List α) :
    (l.map f).isEmpty = l.isEmpty := by
  cases l <;> rfl

theorem meanOver_flip (rec : List FieldSample) (a b : ℤ) :
    meanOver (flipRecord rec) a b = (meanOver rec a b).map neg3 := by
  unfold meanOver
  have hfil : (flipRecord rec).filter
      (fun s => decide (a ≤ s.t) && decide (s.t ≤ b)) =
      (rec.filter (fun s => decide (a ≤ s.t) && decide (s.t ≤ b))).map fNeg := by
    unfold flipRecord
    rw [List.filter_map]
    rfl
  rw [hfil]
  by_cases hc : (rec.filter
      (fun s => decide (a ≤ s.t) && decide (s.t ≤ b))).isEmpty
  · rw [if_pos (by rw [isEmpty_map]; exact hc), if_pos hc]
    exact fieldAt_flip rec (Int.tdiv (a + b) 2)
  · rw [if_neg (by rw [isEmpty_map]; exact hc), if_neg hc]
    show Except.ok _ = Except.map neg3 (Except.ok _)
    have hBx : ∀ (l : List FieldSample),
        (l.map fNeg).map FieldSample.Bx = l.map fun s => -(s.Bx) := by
      intro l
      rw [List.map_map]
      rfl
    have hBy : ∀ (l : List FieldSample),
        (l.map fNeg).map FieldSample.By = l.map fun s => -(s.By) := by
      intro l
      rw [List.map_map]
      rfl
    have hBz : ∀ (l : List FieldSample),
        (l.map fNeg).map FieldSample.Bz = l.map fun s => -(s.Bz) := by
      intro l
      rw [List.map_map]
      rfl
    rw [hBx, hBy, hBz, sum_map_neg _ (fun s : FieldSample => s.Bx),
      sum_map_neg _ (fun s : FieldSample => s.By),
      sum_map_neg _ (fun s : FieldSample => s.Bz), List.length_map]
    show Except.ok (_, _, _) = Except.ok (neg3 (_, _, _))
    unfold neg3
    rw [neg_div, neg_div, neg_div]

theorem polarityGate_flip (b : ℚ × ℚ × ℚ) :
    polarityGate true (neg3 b) = polarityGate false b := by
  unfold polarityGate neg3
  simp [neg_pos]

theorem buildIntegrand_flip (omni : List FieldSample) (t : List ℤ)
    (deriv eic : List ℚ) :
    buildIntegrand (flipRecord omni) t deriv eic true =
      buildIntegrand omni t deriv eic false := by
  unfold buildIntegrand
  apply mapME_congr
  intro p _
  rw [fieldAt_flip]
  cases fieldAt omni p.1 with
  | error e => rfl
  | ok b =>
      show Except.ok
          (if polarityGate true (neg3 b) = true ∧ p.2.2 ≤ MAX_ENERGY_ANALYZED
           then p.2.1 else 0) =
        Except.ok
          (if polarityGate false b = true ∧ p.2.2 ≤ MAX_ENERGY_ANALYZED
           then p.2.1 else 0)
      rw [polarityGate_flip]

end DmspStorm

namespace DmspStorm

theorem summarize_flip (omni : List FieldSample) (t : List ℤ)
    (iv : Nat × Nat) :
    summarize (flipRecord omni) t iv = (summarize omni t iv).map negRow := by
  simp only [summarize]
  rw [meanOver_flip]
  cases meanOver omni (t.getD iv.1 0) (t.getD iv.2 0) with
  | error e => rfl
  | ok b => rfl

theorem plotLoop_flip (df : Df) (np : Bool) (nm : String) :
    plotLoop (flipDf df) np nm = flipDf (plotLoop df np nm) := by
  unfold plotLoop
  have h1 : ∀ (l : List MatchRecord) (acc : Df),
      (l.map negRow).foldl
        (fun acc _ => if np then acc else { acc with file := some nm }) acc =
      l.foldl
        (fun acc _ => if np then acc else { acc with file := some nm }) acc := by
    intro l
    induction l with
    | nil => intro acc; rfl
    | cons r rest ih =>
        intro acc
        rw [List.map_cons, List.foldl_cons, List.foldl_cons]
        exact ih _
  have h2 : ∀ (l : List MatchRecord) (acc : Df),
      l.foldl
        (fun acc _ => if np then acc else { acc with file := some nm })
        (flipDf acc) =
      flipDf (l.foldl
        (fun acc _ => if np then acc else { acc with file := some nm }) acc) := by
    intro l
    induction l with
    | nil => intro acc; rfl
    | cons r rest ih =>
        intro acc
        rw [List.foldl_cons, List.foldl_cons, ← ih]
        congr 1
        split <;> rfl
  show (df.rows.map negRow).foldl _ (flipDf df) = _
  rw [h1]
  exact h2 df.rows df

theorem walk_and_integrate_flip (fh : DmspFh) (omni : List FieldSample)
    (deriv eic : List ℚ) (maxDur : ℤ) :
    walk_and_integrate fh (flipRecord omni) deriv eic maxDur true =
      (walk_and_integrate fh omni deriv eic maxDur false).map flipDf := by
  unfold walk_and_integrate
  rw [buildIntegrand_flip]
  cases buildIntegrand omni fh.t deriv eic false with
  | error e => rfl
  | ok integ =>
      show (match mapME (summarize (flipRecord omni) fh.t)
          (walk { walkerCfg with maxDur := maxDur } (fh.t.zip integ)) with
        | .error e => .error e
        | .ok rows => .ok (⟨rows, none⟩ : Df)) =
        Except.map flipDf
          (match mapME (summarize omni fh.t)
              (walk { walkerCfg with maxDur := maxDur } (fh.t.zip integ)) with
          | .error e => .error e
          | .ok rows => .ok (⟨rows, none⟩ : Df))
      rw [mapME_congr
        (fun iv _ => summarize_flip omni fh.t iv), mapME_map_except]
      cases mapME (summarize omni fh.t)
          (walk { walkerCfg with maxDur := maxDur } (fh.t.zip integ)) with
      | error e => rfl
      | ok rows => rfl

end DmspStorm

namespace DmspStorm

/-- Claim C6 (amended): a reverse-polarity run on the sign-flipped field
record finds exactly the same event intervals (identical start/end
times) as a forward-polarity run on the original record, but the three
reported mean field components of every match are negated; the full
match records therefore coincide only where the means vanish. -/
theorem search_events_polarity_flip (logT : ℚ → ℚ) (fh : DmspFh)
    (omni : List FieldSample) (np : Bool) (nm : String) :
    search_events logT (.ok fh) (flipRecord omni) np true nm =
      (search_events logT (.ok fh) omni np false nm).map (Option.map flipDf) ∧
    ∀ df : Df, (flipDf df).rows.map (fun r => (r.start_time, r.end_time)) =
      df.rows.map (fun r => (r.start_time, r.end_time)) := by
  constructor
  · show (match walk_and_integrate fh (flipRecord omni)
        (estimate_log_Eic_smooth_derivative logT fh).1
        (estimate_log_Eic_smooth_derivative logT fh).2
        INTERVAL_LENGTH true with
      | .error e => .error e
      | .ok df_match => .ok (some (plotLoop df_match np nm))) =
      Except.map (Option.map flipDf)
        (match walk_and_integrate fh omni
            (estimate_log_Eic_smooth_derivative logT fh).1
            (estimate_log_Eic_smooth_derivative logT fh).2
            INTERVAL_LENGTH false with
        | .error e => .error e
        | .ok df_match => .ok (some (plotLoop df_match np nm)))
    rw [walk_and_integrate_flip]
    cases hw : walk_and_integrate fh omni
        (estimate_log_Eic_smooth_derivative logT fh).1
        (estimate_log_Eic_smooth_derivative logT fh).2
        INTERVAL_LENGTH false with
    | error e => rfl
    | ok df₀ =>
        show Except.ok (some (plotLoop (flipDf df₀) np nm)) =
          Except.ok (some (flipDf (plotLoop df₀ np nm)))
        rw [plotLoop_flip]
  · intro df
    simp [flipDf, negRow, List.map_map, Function.comp]

/-- Counterexample to claim C6 as stated: on a concrete file and field
record the reverse run on the flipped record does not produce the same
match records — the interval agrees but the reported field means have
the opposite sign. -/
theorem search_events_polarity_flip_counterexample :
    search_events id (.ok fh6) (flipRecord omni6) true true "f" ≠
      search_events id (.ok fh6) omni6 true false "f" := by
  have h2 : search_events id (.ok fh6) omni6 true false "f" =
      .ok (some ⟨[rec6], none⟩) := by
    norm_num [search_events, walk_and_integrate, buildIntegrand, mapME,
      estimate_log_Eic_smooth_derivative, fieldAt, meanOver, summarize, walk,
      walkCore, stepW, initSt, finalizeW, plotLoop, polarityGate, walkerCfg,
      SMOOTH_WINDOW, MAX_ENERGY_ANALYZED, INTERVAL_LENGTH, MIN_EVENT_DURATION,
      MIN_INTEGRAL_MAGNITUDE, fh6, omni6, rec6, List.range_succ]
  have h1 : search_events id (.ok fh6) (flipRecord omni6) true true "f" =
      .ok (some ⟨[⟨0, 240, -5, 2, 8⟩], none⟩) := by
    norm_num [search_events, walk_and_integrate, buildIntegrand, mapME,
      estimate_log_Eic_smooth_derivative, fieldAt, meanOver, summarize, walk,
      walkCore, stepW, initSt, finalizeW, plotLoop, polarityGate, walkerCfg,
      SMOOTH_WINDOW, MAX_ENERGY_ANALYZED, INTERVAL_LENGTH, MIN_EVENT_DURATION,
      MIN_INTEGRAL_MAGNITUDE, fh6, omni6, rec6, flipRecord, fNeg,
      List.range_succ]
  rw [h1, h2]
  simp only [ne_eq, Except.ok.injEq, Option.some.injEq, Df.mk.injEq,
    List.cons.injEq, MatchRecord.mk.injEq, and_true, true_and]
  norm_num [rec6]

end DmspStorm
